import Mathlib

/-!
Verification of the emoji-picker plugin
(`packages/ckeditor5-emoji/src/emojipicker.ts` and
`packages/ckeditor5-emoji/src/emojilibraryintegration.ts`).

The relevant program state and operations are embedded shallowly:
machine-side promises become explicit `Except`/`Option` results, the
JavaScript `Map` held in `this._emojis` becomes an association list, and
the event-driven async interleavings of `_updateGrid` become an explicit
event-trace step function.
-/

namespace EmojiPicker

/-- One element of the `skins` array of a database emoji row: a skin-tone
rank together with the glyph for that tone. -/
structure Skin where
  tone : Nat
  unicode : String
  deriving DecidableEq

/-- A row returned by `emojiDatabase.getEmojiByGroup`. The field `annot`
models the `annotation` field of the row (the emoji name, always present on
group rows); `skins` is present only when the emoji has skin-tone data. -/
structure GroupDbEmoji where
  annot : String
  unicode : String
  skins : Option (List Skin)
  deriving DecidableEq

/-- A row returned by `emojiDatabase.getEmojiBySearchQuery`. The code tests
`if ( 'annotation' in queriedEmoji )`, so here the field is optional. -/
structure SearchDbEmoji where
  annot : Option String
  unicode : String
  deriving DecidableEq

/-- The failure of the underlying emoji dataset (a rejected database
promise). -/
inductive DataUnavailable where
  | dataUnavailable
  deriving DecidableEq

/-- `EmojiItem` of the source: an emoji name together with all its
skin-tone glyph variants (`emojis[0]` is the base glyph). -/
structure EmojiItem where
  name : String
  emojis : List String
  deriving DecidableEq

/-- `EmojiGroup` of the source. -/
structure EmojiGroup where
  title : String
  exampleEmoji : String
  items : List EmojiItem
  deriving DecidableEq

/-- The `this._emojis` map (name to glyph-variant list). Only `get` and
`set` are ever used on it, so a JavaScript `Map` is modelled as an
association list in which `set` prepends and `get` takes the most recent
binding. -/
abbrev Catalog := List (String × List String)

/-- `this._emojis.get( name )`. -/
def catalogGet (c : Catalog) (name : String) : Option (List String) :=
  List.lookup name c

/-- `this._emojis.set( name, emojis )`. -/
def catalogSet (c : Catalog) (name : String) (emojis : List String) : Catalog :=
  (name, emojis) :: c

/-- `item.skins!.sort( ( a, b ) => a.tone - b.tone )`: the skins sorted
ascending by tone rank (JavaScript `sort` is stable; `insertionSort` is a
stable sort). -/
def toneSort (skins : List Skin) : List Skin :=
  List.insertionSort (fun a b => a.tone ≤ b.tone) skins

/-- The glyph-variant list built for one database row in `_getEmojiGroup`:
`const emojis = [ item.unicode ]`, then when the row has `skins`,
`emojis.push( ...item.skins!.sort( ( a, b ) => a.tone - b.tone ).map( item => item.unicode ) )`. -/
def itemEmojis (db : GroupDbEmoji) : List String :=
  match db.skins with
  | none => [db.unicode]
  | some skins => db.unicode :: (toneSort skins).map (fun s => s.unicode)

/-- The `EmojiItem` built for one database row in `_getEmojiGroup`
(`name = item.annotation`). -/
def mkEmojiItem (db : GroupDbEmoji) : EmojiItem :=
  { name := db.annot, emojis := itemEmojis db }

/-- `_getEmojiGroup`: awaits `getEmojiByGroup` (modelled by the
`databaseGroup` argument: a rejected promise is `Except.error`), maps each
row to an `EmojiItem` and records it in `this._emojis`. There is no
`try`/`catch`, so a rejection propagates to the caller unchanged. Returns
the built group together with the updated catalog. -/
def _getEmojiGroup (title exampleEmoji : String)
    (databaseGroup : Except DataUnavailable (List GroupDbEmoji))
    (emojis : Catalog) : Except DataUnavailable (EmojiGroup × Catalog) :=
  match databaseGroup with
  | .error e => .error e
  | .ok rows =>
      .ok ({ title := title, exampleEmoji := exampleEmoji, items := rows.map mkEmojiItem },
           rows.foldl (fun c db => catalogSet c db.annot (itemEmojis db)) emojis)

/-- The `Promise.all` over the `_getEmojiGroup` calls in `init`, threading
the `this._emojis` catalog through (each call is given its group title,
example glyph and database result). `Promise.all` rejects as soon as one
of the group loads rejects. -/
def initGroups :
    List (String × String × Except DataUnavailable (List GroupDbEmoji)) →
    Catalog → Except DataUnavailable (List EmojiGroup × Catalog)
  | [], c => .ok ([], c)
  | (title, exampleEmoji, res) :: rest, c =>
      match _getEmojiGroup title exampleEmoji res c with
      | .error e => .error e
      | .ok (g, c2) =>
          match initGroups rest c2 with
          | .error e => .error e
          | .ok (gs, c3) => .ok (g :: gs, c3)

/-- A tile of the grid view, as built by `gridView.createTile( emoji, item.name )`. -/
structure Tile where
  emoji : String
  name : String
  deriving DecidableEq

/-- `item.emojis[ this._selectedSkinTone ] || item.emojis[ 0 ]`: an
out-of-bounds indexed read yields `undefined` and `||` falls through on any
falsy value (`undefined` or the empty string), so the read is modelled by
`getD _ ""` plus an emptiness test. -/
def resolveGlyph (selectedSkinTone : Nat) (emojis : List String) : String :=
  let chosen := emojis.getD selectedSkinTone ""
  if chosen = "" then emojis.getD 0 "" else chosen

/-- The tile built for one item inside the loop of `_addTilesToGrid`. -/
def tileOf (selectedSkinTone : Nat) (it : EmojiItem) : Tile :=
  { emoji := resolveGlyph selectedSkinTone it.emojis, name := it.name }

/-- `_addTilesToGrid`: appends one tile per item to the tiles already in
the grid view (it never clears). -/
def _addTilesToGrid (selectedSkinTone : Nat) (tiles : List Tile)
    (emojisForCategory : List EmojiItem) : List Tile :=
  tiles ++ emojisForCategory.map (tileOf selectedSkinTone)

/-- `_getEmojisForCategory`: `this._emojiGroups.find( group => group.title === groupName )!`
followed by `.items`. The non-null assertion makes the failed lookup a
runtime `TypeError`, modelled as `none`. -/
def _getEmojisForCategory (emojiGroups : List EmojiGroup) (groupName : String) :
    Option (List EmojiItem) :=
  (emojiGroups.find? (fun g => g.title == groupName)).map (fun g => g.items)

/-- The guard `!this._searchQuery || this._searchQuery.length < 2` of
`_updateGrid` (`null` and the empty string are falsy). -/
def shortQuery (searchQuery : Option String) : Bool :=
  match searchQuery with
  | none => true
  | some s => s == "" || s.length < 2

/-- One step of the search-result mapping inside `_updateGrid`: take the
row name from `annotation` when present (else the empty string), look it
up in `this._emojis`, and return `null` (here `none`) when the lookup
fails. -/
def resolveQueried (emojis : Catalog) (queriedEmoji : SearchDbEmoji) : Option EmojiItem :=
  let name := queriedEmoji.annot.getD ""
  match catalogGet emojis name with
  | none => none
  | some es => some { name := name, emojis := es }

/-- `queryResult.map( ... )` followed by `.filter( Boolean )` (and the cast
back to items): the resolved search rows with the unresolvable ones
dropped. -/
def searchItems (emojis : Catalog) (queryResult : List SearchDbEmoji) : List EmojiItem :=
  ((queryResult.map (resolveQueried emojis)).filterMap id)

/-- The observable outcome of one full (uninterleaved) run of
`_updateGrid`. -/
inductive GridOutcome where
  | crash
  | rejected (e : DataUnavailable)
  | ok (tiles : List Tile) (categoriesEnabled : Bool)
  deriving DecidableEq

/-- `_updateGrid`, run to completion with no interleaved state change.
`dbSearch` models `getEmojiBySearchQuery` (an `Except.error` is a rejected
promise; the code has no `catch`, so the rejection escapes, modelled by
`GridOutcome.rejected`). The grid starts from cleared tiles
(`gridView.tiles.clear()`); the short-query branch renders the active
category and re-enables category selection, the search branch resolves the
query rows against `this._emojis` and disables category selection. -/
def _updateGrid (dbSearch : String → Except DataUnavailable (List SearchDbEmoji))
    (emojis : Catalog) (emojiGroups : List EmojiGroup)
    (searchQuery : Option String) (currentCategoryName : String)
    (selectedSkinTone : Nat) : GridOutcome :=
  if shortQuery searchQuery then
    match _getEmojisForCategory emojiGroups currentCategoryName with
    | none => .crash
    | some emojisForCategory =>
        .ok (_addTilesToGrid selectedSkinTone [] emojisForCategory) true
  else
    match dbSearch (searchQuery.getD "") with
    | .error e => .rejected e
    | .ok queryResult =>
        .ok (_addTilesToGrid selectedSkinTone [] (searchItems emojis queryResult)) false

/-- The part of the picker environment that stays fixed across the
asynchronous interleavings studied here: the database search results
(success path), the built catalog and groups, the current category of the
categories view, and the selected skin tone. -/
structure PickerEnv where
  dbSearch : String → List SearchDbEmoji
  emojis : Catalog
  emojiGroups : List EmojiGroup
  currentCategoryName : String
  selectedSkinTone : Nat

/-- The mutable picker state observed between event-loop turns:
`this._searchQuery`, the tiles currently in the grid view, the queries
whose `getEmojiBySearchQuery` promise is still in flight, and whether
category selection is enabled. -/
structure PickerState where
  searchQuery : Option String
  tiles : List Tile
  pending : List String
  categoriesEnabled : Bool
  deriving DecidableEq

/-- The discrete events driving `_updateGrid`: a search-input event
(`searchView.on( 'input', ... )` sets `this._searchQuery` and starts
`_updateGrid`), and the later arrival of one in-flight
`getEmojiBySearchQuery` response. -/
inductive PickerEvent where
  | input (value : String)
  | arrive (q : String)

/-- One event-loop turn. On `input v`, the handler stores the query and
`_updateGrid` runs up to its first suspension: the tiles are cleared; a
short query is rendered synchronously from the active category (crash as
`none` when the category lookup fails); a long query issues the database
search (the query string is captured at call time) and suspends. On
`arrive q`, the continuation of an in-flight search for `q` resumes: its
tiles are appended to whatever the grid now holds, with no check that `q`
is still the current query. -/
def step (env : PickerEnv) (s : PickerState) : PickerEvent → Option PickerState
  | .input v =>
      let s := { s with searchQuery := some v, tiles := [] }
      if shortQuery (some v) then
        match _getEmojisForCategory env.emojiGroups env.currentCategoryName with
        | none => none
        | some items =>
            some { s with tiles := _addTilesToGrid env.selectedSkinTone s.tiles items,
                          categoriesEnabled := true }
      else
        some { s with pending := s.pending ++ [v] }
  | .arrive q =>
      if s.pending.contains q then
        some { s with
                pending := s.pending.erase q,
                tiles := _addTilesToGrid env.selectedSkinTone s.tiles
                           (searchItems env.emojis (env.dbSearch q)),
                categoriesEnabled := false }
      else none

/-- Runs a sequence of events from a starting state. -/
def run (env : PickerEnv) (s : PickerState) : List PickerEvent → Option PickerState
  | [] => some s
  | e :: es =>
      match step env s e with
      | none => none
      | some s2 => run env s2 es

/-- Modelled from the spec: the grid view `execute` dispatch lives in
`ui/emojigridview.ts`, which is not among the reviewed sources. Per the
spec, activating fires the event only for a displayed tile, carrying that
tile glyph, which the handler inserts via
`editor.execute( 'insertText', { text: data.emoji } )`. Returns the text
inserted into the document, `none` when no insertion happens. -/
def activate (tiles : List Tile) (name : String) : Option String :=
  (tiles.find? (fun t => t.name == name)).map (fun t => t.emoji)

/-- A one-entry catalog for the concrete scenarios below. -/
def exCatalog : Catalog := [("grinning face", ["G"])]

/-- Concrete database search results: the query "ab" matches the grinning
face, every other query matches nothing. -/
def exDbSearch : String → List SearchDbEmoji :=
  fun s => if s == "ab" then [⟨some "grinning face", "G"⟩] else []

/-- One concrete loaded group. -/
def exGroups : List EmojiGroup :=
  [⟨"Smileys & Expressions", "E", [⟨"grinning face", ["G"]⟩]⟩]

/-- A concrete environment for the async-race scenario. -/
def exEnv : PickerEnv :=
  ⟨exDbSearch, exCatalog, exGroups, "Smileys & Expressions", 0⟩

/-- The picker state right after opening: no query, empty grid, nothing in
flight. -/
def exStart : PickerState := ⟨none, [], [], true⟩

/-- A catalog whose single record has a base glyph and one tone variant. -/
def toneCatalog : Catalog := [("grinning face", ["G0", "G1"])]

/-- Database search results resolving every query to the two-tone record. -/
def toneDbSearch : String → Except DataUnavailable (List SearchDbEmoji) :=
  fun _ => .ok [⟨some "grinning face", "G0"⟩]

/-- One concrete group-load input for the activation scenario. -/
def c3specs : List (String × String × Except DataUnavailable (List GroupDbEmoji)) :=
  [("Smileys & Expressions", "E", .ok [⟨"grinning face", "G", none⟩])]

/-- One concrete group-load row with unsorted skins. -/
def c6rows : List GroupDbEmoji :=
  [⟨"grinning face", "G", some [⟨2, "G2"⟩, ⟨1, "G1"⟩]⟩]

end EmojiPicker

namespace EmojiLibraryIntegration

open EmojiPicker

/-- Whether a character is matched by the pattern of
`emoji.annotation.replace( /[ :]+/g, '_' )`. -/
def isIdSep (c : Char) : Bool :=
  c == ' ' || c == ':'

/-- `id.replace( /[ :]+/g, '_' )`: each maximal run of spaces and colons
becomes a single underscore. The boolean accumulator records whether the
previous character belonged to such a run. -/
def replaceIdSeps (s : String) : String :=
  (s.data.foldl
    (fun acc ch =>
      if isIdSep ch then (if acc.2 then acc else (acc.1.push '_', true))
      else (acc.1.push ch, false))
    (("", false) : String × Bool)).1

/-- `emoji.annotation.replace( /[ :]+/g, '_' ).toLocaleLowerCase()`. -/
def normalizeEmojiName (s : String) : String :=
  (replaceIdSeps s).map Char.toLower

/-- A `MentionFeedObjectItem` as produced by `getQueryEmojiFn`: the
show-all entry carries only an `id`, ordinary entries also carry the glyph
in `text`. -/
structure MentionFeedItem where
  id : String
  text : Option String
  deriving DecidableEq

/-- The body of the function returned by `getQueryEmojiFn`, once the
database query has resolved to `queryResult`: map each emoji to a feed
item, keep the entries whose index is below `queryLimit - 1`, and append
the show-all entry. The helpers `formatEmojiId` and `getShowAllEmojiId`
live in `utils.ts`, which is not among the reviewed sources, so they are
taken as parameters (`fmt` and `showAllId`). -/
def queryEmojiFeed (fmt : String → String) (showAllId : String)
    (queryLimit : Nat) (queryResult : List GroupDbEmoji) : List MentionFeedItem :=
  let processedQuery := queryResult.map
    (fun e => MentionFeedItem.mk (fmt (normalizeEmojiName e.annot)) (some e.unicode))
  ((processedQuery.enum.filter (fun p => p.1 < queryLimit - 1)).map (fun p => p.2))
    ++ [MentionFeedItem.mk showAllId none]

end EmojiLibraryIntegration

namespace EmojiPicker

/-- Helper: a query of length at least two fails the short-query guard. -/
theorem shortQuery_eq_false {s : String} (hs : 2 ≤ s.length) :
    shortQuery (some s) = false := by
  have h0 : ¬(s = "") := by
    intro h
    subst h
    exact absurd hs (by decide)
  simp only [shortQuery, Bool.or_eq_false_iff, beq_eq_false_iff_ne, ne_eq,
    decide_eq_false_iff_not, not_lt]
  exact ⟨h0, hs⟩

/-- Helper: an absent query, or one of length below two, passes the
short-query guard. -/
theorem shortQuery_eq_true {q : Option String}
    (hq : q = none ∨ ∃ s, q = some s ∧ s.length < 2) : shortQuery q = true := by
  rcases hq with rfl | ⟨s, rfl, hlen⟩
  · rfl
  · simp only [shortQuery, Bool.or_eq_true, decide_eq_true_eq]
    exact Or.inr hlen

/-- Claim C2: the code does not treat `DataUnavailable` as zero results:
`_getEmojiGroup` has no `catch`, so a rejected `getEmojiByGroup` promise
propagates out of it (and hence rejects the `Promise.all` in `init`), and
a rejected `getEmojiBySearchQuery` promise escapes `_updateGrid`
unhandled, instead of yielding an empty tile set. -/
theorem dataUnavailablePropagates :
    _getEmojiGroup "Smileys & Expressions" "E" (.error .dataUnavailable) [] =
      .error .dataUnavailable ∧
    _updateGrid (fun _ => .error .dataUnavailable) [] exGroups (some "ab")
      "Smileys & Expressions" 0 = .rejected .dataUnavailable :=
  ⟨rfl, rfl⟩

/-- Claim C4: every tile is rendered through
`item.emojis[ selectedSkinTone ] || item.emojis[ 0 ]`; when the record has
a (nonempty) variant at the selected rank, exactly that variant is
rendered, and when the rank is out of range the rank-0 base glyph is
rendered, never a nearest rank. -/
theorem toneFallbackPolicy (selectedSkinTone : Nat) (tiles : List Tile)
    (items : List EmojiItem) (it : EmojiItem)
    (hglyphs : ∀ e ∈ it.emojis, e ≠ "") :
    _addTilesToGrid selectedSkinTone tiles items =
      tiles ++ items.map (fun i => Tile.mk (resolveGlyph selectedSkinTone i.emojis) i.name) ∧
    (∀ h : selectedSkinTone < it.emojis.length,
        resolveGlyph selectedSkinTone it.emojis = it.emojis[selectedSkinTone]) ∧
    (it.emojis.length ≤ selectedSkinTone →
        resolveGlyph selectedSkinTone it.emojis = it.emojis.getD 0 "") := by
  refine ⟨rfl, ?_, ?_⟩
  · intro h
    have hc : it.emojis.getD selectedSkinTone "" = it.emojis[selectedSkinTone] :=
      List.getD_eq_getElem it.emojis "" h
    have hne : it.emojis[selectedSkinTone] ≠ "" :=
      hglyphs _ (List.getElem_mem h)
    rw [resolveGlyph, hc, if_neg hne]
  · intro h
    have hz : it.emojis.getD selectedSkinTone "" = "" := List.getD_eq_default _ _ h
    rw [resolveGlyph, hz, if_pos rfl]

/-- Witness for C4 at a concrete record with two variants. -/
theorem toneFallbackPolicy_witness :
    resolveGlyph 1 ["A", "B"] = "B" ∧ resolveGlyph 5 ["A", "B"] = "A" := by
  have h1 := (toneFallbackPolicy 1 [] [] ⟨"x", ["A", "B"]⟩ (by decide)).2.1 (by decide)
  have h2 := (toneFallbackPolicy 5 [] [] ⟨"x", ["A", "B"]⟩ (by decide)).2.2 (by decide)
  exact ⟨by simpa using h1, by simpa using h2⟩

/-- Claim C5: with a search text of length below two (or no search text at
all), `_updateGrid` renders exactly the items of the active category,
tone-resolved, and re-enables category selection, independently of any
earlier search history; with a search text of length at least two the grid
is instead derived from the database text search. -/
theorem shortSearchBoundary
    (dbSearch : String → Except DataUnavailable (List SearchDbEmoji))
    (emojis : Catalog) (emojiGroups : List EmojiGroup)
    (currentCategoryName : String) (tone : Nat) (items : List EmojiItem)
    (hcat : _getEmojisForCategory emojiGroups currentCategoryName = some items) :
    (∀ searchQuery : Option String,
        (searchQuery = none ∨ ∃ s, searchQuery = some s ∧ s.length < 2) →
        _updateGrid dbSearch emojis emojiGroups searchQuery currentCategoryName tone =
          .ok (_addTilesToGrid tone [] items) true) ∧
    (∀ s : String, 2 ≤ s.length →
        _updateGrid dbSearch emojis emojiGroups (some s) currentCategoryName tone =
          (match dbSearch s with
           | .error e => .rejected e
           | .ok queryResult =>
               .ok (_addTilesToGrid tone [] (searchItems emojis queryResult)) false)) ∧
    (∀ (env : PickerEnv) (st : PickerState) (v : String),
        v.length < 2 →
        _getEmojisForCategory env.emojiGroups env.currentCategoryName = some items →
        step env st (.input v) =
          some ⟨some v, _addTilesToGrid env.selectedSkinTone [] items, st.pending, true⟩) := by
  refine ⟨?_, ?_, ?_⟩
  · intro searchQuery hq
    have hs := shortQuery_eq_true hq
    simp [_updateGrid, hs, hcat]
  · intro s hs
    have hf := shortQuery_eq_false hs
    simp [_updateGrid, hf]
  · intro env st v hv hcat2
    have hs : shortQuery (some v) = true := shortQuery_eq_true (Or.inr ⟨v, rfl, hv⟩)
    simp [step, hs, hcat2]

/-- Witness for C5 at a concrete one-character query. -/
theorem shortSearchBoundary_witness :
    _updateGrid (fun _ => .ok []) [] exGroups (some "a") "Smileys & Expressions" 0 =
      .ok (_addTilesToGrid 0 [] [⟨"grinning face", ["G"]⟩]) true :=
  (shortSearchBoundary (fun _ => .ok []) [] exGroups "Smileys & Expressions" 0
      [⟨"grinning face", ["G"]⟩] (by decide)).1 (some "a") (Or.inr ⟨"a", rfl, by decide⟩)

/-- Claim C8 counterexample: with the search "ab" active (length two, so
Search-filtering is active), changing the selected skin tone from 0 to 1
changes the rendered search tiles from the base glyph to the tone-1
variant, so a tone change is applied to the rendering while search is
active, contradicting the claim that it is stored but not applied. -/
theorem toneChangeAppliedDuringSearch :
    _updateGrid toneDbSearch toneCatalog exGroups (some "ab") "Smileys & Expressions" 0 =
      .ok [⟨"G0", "grinning face"⟩] false ∧
    _updateGrid toneDbSearch toneCatalog exGroups (some "ab") "Smileys & Expressions" 1 =
      .ok [⟨"G1", "grinning face"⟩] false :=
  ⟨rfl, rfl⟩

/-- Claim C8 as amended: while Search-filtering is active, a category
change leaves the visible tile set unchanged (the search path never reads
the active category), but a tone change is applied immediately: the grid
re-renders the search results with the currently selected tone. -/
theorem searchRenderingIgnoresCategoryNotTone
    (dbSearch : String → Except DataUnavailable (List SearchDbEmoji))
    (emojis : Catalog) (emojiGroups : List EmojiGroup) (s : String)
    (hs : 2 ≤ s.length) (cat cat2 : String) (tone : Nat) :
    _updateGrid dbSearch emojis emojiGroups (some s) cat tone =
      _updateGrid dbSearch emojis emojiGroups (some s) cat2 tone ∧
    (∀ queryResult, dbSearch s = .ok queryResult →
        _updateGrid dbSearch emojis emojiGroups (some s) cat tone =
          .ok ((searchItems emojis queryResult).map (tileOf tone)) false) := by
  have hf := shortQuery_eq_false hs
  constructor
  · simp [_updateGrid, hf]
  · intro queryResult hres
    simp [_updateGrid, hf, hres, _addTilesToGrid]

/-- Witness for the amended C8. -/
theorem searchRenderingIgnoresCategoryNotTone_witness :
    _updateGrid toneDbSearch toneCatalog exGroups (some "ab") "Flags" 1 =
      _updateGrid toneDbSearch toneCatalog exGroups (some "ab") "Objects" 1 :=
  (searchRenderingIgnoresCategoryNotTone toneDbSearch toneCatalog exGroups "ab"
      (by decide) "Flags" "Objects" 1).1

/-- Claim C10: the category lookup is a find-by-title with a non-null
assertion; for a name matching no loaded group title the lookup yields no
group and the category-browsing grid update crashes (undefined
dereference) instead of producing an empty tile set. -/
theorem categoryLookupIsPartial (emojiGroups : List EmojiGroup) (groupName : String)
    (h : ∀ g ∈ emojiGroups, g.title ≠ groupName) :
    _getEmojisForCategory emojiGroups groupName = none ∧
    ∀ (dbSearch : String → Except DataUnavailable (List SearchDbEmoji))
      (emojis : Catalog) (searchQuery : Option String) (tone : Nat),
        shortQuery searchQuery = true →
        _updateGrid dbSearch emojis emojiGroups searchQuery groupName tone = .crash := by
  have hfind : emojiGroups.find? (fun g => g.title == groupName) = none :=
    List.find?_eq_none.mpr (fun g hg => by simpa using h g hg)
  constructor
  · simp [_getEmojisForCategory, hfind]
  · intro dbSearch emojis searchQuery tone hshort
    simp [_updateGrid, hshort, _getEmojisForCategory, hfind]

/-- Witness for C10 at a concrete unmatched category name. -/
theorem categoryLookupIsPartial_witness :
    _getEmojisForCategory [⟨"Activities", "B", []⟩] "Flags" = none :=
  (categoryLookupIsPartial [⟨"Activities", "B", []⟩] "Flags" (by decide)).1

/-- Claim C1: the code does not apply last-requester-wins. `_updateGrid`
clears the tiles when a search starts and appends the response tiles when
it arrives, with no check that the query is still current. Concretely:
searches "ab" then "abc" are both in flight, the newer "abc" response
(empty) arrives first, then the stale "ab" response arrives and is applied,
so the final visible tiles are exactly the result for the superseded query
"ab" while the current query is "abc". -/
theorem staleSearchResultDisplayed :
    run exEnv exStart [.input "ab", .input "abc", .arrive "abc", .arrive "ab"] =
      some ⟨some "abc", [⟨"G", "grinning face"⟩], [], false⟩ ∧
    _addTilesToGrid 0 [] (searchItems exCatalog (exDbSearch "ab")) =
      [⟨"G", "grinning face"⟩] ∧
    _addTilesToGrid 0 [] (searchItems exCatalog (exDbSearch "abc")) = [] := by
  refine ⟨?_, ?_, ?_⟩ <;> rfl

/-- Helper: the tone comparator sort used on the skins is sorted ascending
by tone rank. -/
theorem toneSort_sorted (skins : List Skin) :
    List.Sorted (fun a b : Skin => a.tone ≤ b.tone) (toneSort skins) := by
  have htot : IsTotal Skin (fun a b => a.tone ≤ b.tone) :=
    ⟨fun a b => Nat.le_total a.tone b.tone⟩
  have htrans : IsTrans Skin (fun a b => a.tone ≤ b.tone) :=
    ⟨fun a b c hab hbc => Nat.le_trans hab hbc⟩
  exact @List.sorted_insertionSort Skin (fun a b => a.tone ≤ b.tone) _ htot htrans skins

/-- Claim C6: every record returned by a successful group load has its
glyph sequence equal to the base glyph followed by the skin variants
sorted ascending by tone rank, so index 0 is always defined and is the
base glyph. -/
theorem groupVariantsSortedBaseFirst (title exampleEmoji : String)
    (rows : List GroupDbEmoji) (g : EmojiGroup) (c c2 : Catalog)
    (hg : _getEmojiGroup title exampleEmoji (.ok rows) c = .ok (g, c2)) :
    ∀ it ∈ g.items, ∃ db ∈ rows,
      it.emojis = db.unicode :: (toneSort (db.skins.getD [])).map (fun s => s.unicode) ∧
      it.emojis.head? = some db.unicode ∧
      List.Sorted (fun a b : Skin => a.tone ≤ b.tone) (toneSort (db.skins.getD [])) := by
  simp only [_getEmojiGroup, Except.ok.injEq, Prod.mk.injEq] at hg
  obtain ⟨hg1, hg2⟩ := hg
  subst hg1
  intro it hit
  simp only [List.mem_map] at hit
  obtain ⟨db, hdb, rfl⟩ := hit
  refine ⟨db, hdb, ?_, ?_, toneSort_sorted _⟩
  · cases h : db.skins with
    | none => simp [mkEmojiItem, itemEmojis, h, toneSort, List.insertionSort]
    | some skins => simp [mkEmojiItem, itemEmojis, h]
  · cases h : db.skins with
    | none => simp [mkEmojiItem, itemEmojis, h]
    | some skins => simp [mkEmojiItem, itemEmojis, h]

/-- Witness for C6 at a concrete row whose skins arrive out of order. -/
theorem groupVariantsSortedBaseFirst_witness :
    ∃ db ∈ c6rows,
      (mkEmojiItem ⟨"grinning face", "G", some [⟨2, "G2"⟩, ⟨1, "G1"⟩]⟩).emojis =
        db.unicode :: (toneSort (db.skins.getD [])).map (fun s => s.unicode) ∧
      (mkEmojiItem ⟨"grinning face", "G", some [⟨2, "G2"⟩, ⟨1, "G1"⟩]⟩).emojis.head? =
        some db.unicode ∧
      List.Sorted (fun a b : Skin => a.tone ≤ b.tone) (toneSort (db.skins.getD [])) := by
  have h := groupVariantsSortedBaseFirst "T" "E" c6rows _ [] _ rfl
  exact h (mkEmojiItem ⟨"grinning face", "G", some [⟨2, "G2"⟩, ⟨1, "G1"⟩]⟩) (by decide)

/-- Helper: what a successful search-row resolution implies. -/
theorem resolveQueried_eq_some {emojis : Catalog} {q : SearchDbEmoji} {it : EmojiItem}
    (h : resolveQueried emojis q = some it) :
    it.name = q.annot.getD "" ∧ catalogGet emojis it.name = some it.emojis := by
  simp only [resolveQueried] at h
  cases hc : catalogGet emojis (q.annot.getD "") with
  | none => rw [hc] at h; cases h
  | some es =>
      rw [hc] at h
      cases h
      exact ⟨rfl, hc⟩

/-- Helper: the resolved search list is the row-wise partial resolution. -/
theorem searchItems_eq_filterMap (emojis : Catalog) (queryResult : List SearchDbEmoji) :
    searchItems emojis queryResult = queryResult.filterMap (resolveQueried emojis) := by
  simp [searchItems, List.filterMap_map, Function.comp]

/-- Helper: resolution preserves the search-result order (the resolved
names form a sublist of the queried names). -/
theorem searchItems_names_sublist (emojis : Catalog) (queryResult : List SearchDbEmoji) :
    ((searchItems emojis queryResult).map EmojiItem.name).Sublist
      (queryResult.map (fun q => q.annot.getD "")) := by
  rw [searchItems_eq_filterMap]
  induction queryResult with
  | nil => simp
  | cons q qs ih =>
      cases hq : resolveQueried emojis q with
      | none =>
          simp only [List.filterMap_cons, hq, List.map_cons]
          exact ih.cons _
      | some it =>
          simp only [List.filterMap_cons, hq, List.map_cons]
          rw [(resolveQueried_eq_some hq).1]
          exact ih.cons₂ _

/-- Claim C7: each visible search item is obtained by Catalog lookup on
its name; entries whose name is absent from the Catalog are silently
omitted; and the remaining items preserve the search-result order. -/
theorem searchResolutionDropsUnknown (emojis : Catalog) (queryResult : List SearchDbEmoji) :
    (∀ it ∈ searchItems emojis queryResult, catalogGet emojis it.name = some it.emojis) ∧
    ((searchItems emojis queryResult).map EmojiItem.name).Sublist
      (queryResult.map (fun q => q.annot.getD "")) ∧
    (∀ q ∈ queryResult, catalogGet emojis (q.annot.getD "") = none →
        ∀ it ∈ searchItems emojis queryResult, it.name ≠ q.annot.getD "") := by
  have h1 : ∀ it ∈ searchItems emojis queryResult,
      catalogGet emojis it.name = some it.emojis := by
    intro it hit
    rw [searchItems_eq_filterMap] at hit
    obtain ⟨q, hq, hres⟩ := List.mem_filterMap.mp hit
    exact (resolveQueried_eq_some hres).2
  refine ⟨h1, searchItems_names_sublist emojis queryResult, ?_⟩
  intro q hq hnone it hit heq
  have h2 := h1 it hit
  rw [heq, hnone] at h2
  cases h2

end EmojiPicker

namespace EmojiLibraryIntegration

open EmojiPicker

/-- Helper: filtering an index-decorated list by an index bound and
dropping the indices is a prefix take. -/
theorem enumFrom_filter_lt_eq_take {α : Type} (n : Nat) :
    ∀ (l : List α) (k : Nat),
      ((List.enumFrom k l).filter (fun p => p.1 < n)).map Prod.snd = l.take (n - k)
  | [], k => by simp
  | a :: as, k => by
      by_cases hk : k < n
      · have h1 : n - k = (n - (k + 1)) + 1 := by omega
        simp [List.enumFrom_cons, List.filter_cons, hk,
          enumFrom_filter_lt_eq_take n as (k + 1), h1]
      · have h0 : n - k = 0 := by omega
        have h2 : n - (k + 1) = 0 := by omega
        simp [List.enumFrom_cons, List.filter_cons, hk,
          enumFrom_filter_lt_eq_take n as (k + 1), h0, h2]

/-- Claim C9: for every `queryLimit` of at least one, the mention feed is
the first `queryLimit - 1` emoji matches, in index order, followed by
exactly one trailing show-all entry; hence it has at most `queryLimit`
entries and the show-all entry is always last. -/
theorem mentionFeedBounded (fmt : String → String) (showAllId : String)
    (queryLimit : Nat) (queryResult : List GroupDbEmoji)
    (hq : 1 ≤ queryLimit) :
    queryEmojiFeed fmt showAllId queryLimit queryResult =
      ((queryResult.map (fun e =>
          MentionFeedItem.mk (fmt (normalizeEmojiName e.annot)) (some e.unicode))).take
        (queryLimit - 1)) ++ [MentionFeedItem.mk showAllId none] ∧
    (queryEmojiFeed fmt showAllId queryLimit queryResult).length ≤ queryLimit ∧
    (queryEmojiFeed fmt showAllId queryLimit queryResult).getLast? =
      some (MentionFeedItem.mk showAllId none) := by
  have h1 : queryEmojiFeed fmt showAllId queryLimit queryResult =
      ((queryResult.map (fun e =>
          MentionFeedItem.mk (fmt (normalizeEmojiName e.annot)) (some e.unicode))).take
        (queryLimit - 1)) ++ [MentionFeedItem.mk showAllId none] := by
    simp only [queryEmojiFeed]
    rw [show (List.enum = List.enumFrom (α := MentionFeedItem) 0) from rfl,
      enumFrom_filter_lt_eq_take (queryLimit - 1) _ 0, Nat.sub_zero]
  refine ⟨h1, ?_, ?_⟩
  · rw [h1]
    have := List.length_take_le (queryLimit - 1)
      (queryResult.map (fun e =>
        MentionFeedItem.mk (fmt (normalizeEmojiName e.annot)) (some e.unicode)))
    simp only [List.length_append, List.length_cons, List.length_nil]
    omega
  · rw [h1]
    exact List.getLast?_concat _

/-- Witness for C9 with `queryLimit = 2` and two matches. -/
theorem mentionFeedBounded_witness :
    (queryEmojiFeed (fun s => s) "show-all" 2
      [⟨"grinning face", "G", none⟩, ⟨"cat face", "C", none⟩]).length ≤ 2 :=
  (mentionFeedBounded (fun s => s) "show-all" 2
    [⟨"grinning face", "G", none⟩, ⟨"cat face", "C", none⟩] (by decide)).2.1

end EmojiLibraryIntegration

namespace EmojiPicker

/-- Helper: inserting further names into the catalog keeps an existing
name present. -/
theorem catalogGet_isSome_foldl {c : Catalog} {k : String}
    (h : (catalogGet c k).isSome) (rows : List GroupDbEmoji) :
    (catalogGet
      (rows.foldl (fun c db => catalogSet c db.annot (itemEmojis db)) c) k).isSome := by
  induction rows generalizing c with
  | nil => exact h
  | cons db rest ih =>
      apply ih
      simp only [catalogGet, catalogSet, List.lookup]
      cases hk : k == db.annot with
      | true => rfl
      | false => exact h

/-- Helper: after the group rows are inserted, every row name is present
in the catalog. -/
theorem catalogGet_isSome_foldl_mem {rows : List GroupDbEmoji} {db : GroupDbEmoji}
    (hdb : db ∈ rows) (c : Catalog) :
    (catalogGet
      (rows.foldl (fun c r => catalogSet c r.annot (itemEmojis r)) c) db.annot).isSome := by
  induction rows generalizing c with
  | nil => cases hdb
  | cons r rest ih =>
      rcases List.mem_cons.mp hdb with rfl | hmem
      · exact catalogGet_isSome_foldl
          (by simp [catalogGet, catalogSet, List.lookup]) rest
      · exact ih hmem _

/-- Helper: the later group loads of `init` keep every already-present
catalog name present. -/
theorem initGroups_preserves_isSome :
    ∀ (specs : List (String × String × Except DataUnavailable (List GroupDbEmoji)))
      (c : Catalog) (gs : List EmojiGroup) (c2 : Catalog) (k : String),
      initGroups specs c = .ok (gs, c2) →
      (catalogGet c k).isSome → (catalogGet c2 k).isSome
  | [], c, gs, c2, k, hinit, h => by
      simp only [initGroups, Except.ok.injEq, Prod.mk.injEq] at hinit
      rw [← hinit.2]
      exact h
  | (title, exampleEmoji, res) :: rest, c, gs, c2, k, hinit, h => by
      simp only [initGroups] at hinit
      cases res with
      | error e => simp [_getEmojiGroup] at hinit
      | ok rows =>
          simp only [_getEmojiGroup] at hinit
          cases hrec : initGroups rest
              (rows.foldl (fun c db => catalogSet c db.annot (itemEmojis db)) c) with
          | error e => rw [hrec] at hinit; cases hinit
          | ok p =>
              rw [hrec] at hinit
              simp only [Except.ok.injEq, Prod.mk.injEq] at hinit
              have h2 := catalogGet_isSome_foldl h rows
              have h3 := initGroups_preserves_isSome rest _ p.1 p.2 k (by rw [hrec]) h2
              rw [← hinit.2]
              exact h3

/-- Helper: after a successful `init`, every item name of every loaded
group is present in the catalog. -/
theorem initGroups_items_in_catalog :
    ∀ (specs : List (String × String × Except DataUnavailable (List GroupDbEmoji)))
      (c0 : Catalog) (gs : List EmojiGroup) (c : Catalog),
      initGroups specs c0 = .ok (gs, c) →
      ∀ g ∈ gs, ∀ it ∈ g.items, (catalogGet c it.name).isSome
  | [], c0, gs, c, hinit => by
      simp only [initGroups, Except.ok.injEq, Prod.mk.injEq] at hinit
      rw [← hinit.1]
      simp
  | (title, exampleEmoji, res) :: rest, c0, gs, c, hinit => by
      simp only [initGroups] at hinit
      cases res with
      | error e => simp [_getEmojiGroup] at hinit
      | ok rows =>
          simp only [_getEmojiGroup] at hinit
          cases hrec : initGroups rest
              (rows.foldl (fun c db => catalogSet c db.annot (itemEmojis db)) c0) with
          | error e => rw [hrec] at hinit; cases hinit
          | ok p =>
              rw [hrec] at hinit
              simp only [Except.ok.injEq, Prod.mk.injEq] at hinit
              obtain ⟨hgs, hc⟩ := hinit
              subst hc
              intro g hg it hit
              rw [← hgs] at hg
              rcases List.mem_cons.mp hg with rfl | hmem
              · simp only [List.mem_map] at hit
                obtain ⟨db, hdb, rfl⟩ := hit
                exact initGroups_preserves_isSome rest _ p.1 p.2 db.annot (by rw [hrec])
                  (catalogGet_isSome_foldl_mem hdb c0)
              · exact initGroups_items_in_catalog rest _ p.1 p.2 (by rw [hrec]) g hmem it hit

/-- Claim C3: after a successful `init` and grid update, activating a name
that is absent from the Catalog dispatches no insertion and raises no
error: no tile carries such a name, so the activation finds nothing and is
a no-op. -/
theorem activateUnknownNameNoop
    (specs : List (String × String × Except DataUnavailable (List GroupDbEmoji)))
    (gs : List EmojiGroup) (c : Catalog)
    (dbSearch : String → Except DataUnavailable (List SearchDbEmoji))
    (searchQuery : Option String) (cat : String) (tone : Nat)
    (tiles : List Tile) (enabled : Bool) (name : String)
    (hinit : initGroups specs [] = .ok (gs, c))
    (hgrid : _updateGrid dbSearch c gs searchQuery cat tone = .ok tiles enabled)
    (hname : catalogGet c name = none) :
    activate tiles name = none := by
  have htiles : ∀ t ∈ tiles, (catalogGet c t.name).isSome := by
    unfold _updateGrid at hgrid
    by_cases hshort : shortQuery searchQuery = true
    · rw [if_pos hshort] at hgrid
      cases hcat : _getEmojisForCategory gs cat with
      | none => rw [hcat] at hgrid; cases hgrid
      | some items =>
          rw [hcat] at hgrid
          simp only [GridOutcome.ok.injEq] at hgrid
          obtain ⟨hts, _⟩ := hgrid
          obtain ⟨g2, hmemg, hitems⟩ : ∃ g2 ∈ gs, items = g2.items := by
            simp only [_getEmojisForCategory] at hcat
            cases hfind : gs.find? (fun g => g.title == cat) with
            | none => rw [hfind] at hcat; cases hcat
            | some g2 =>
                rw [hfind] at hcat
                simp at hcat
                exact ⟨g2, List.mem_of_find?_eq_some hfind, hcat.symm⟩
          intro t ht
          rw [← hts] at ht
          simp only [_addTilesToGrid, List.nil_append, List.mem_map] at ht
          obtain ⟨it, hitmem, rfl⟩ := ht
          have hsome := initGroups_items_in_catalog specs [] gs c hinit g2 hmemg it
            (hitems ▸ hitmem)
          simpa [tileOf] using hsome
    · rw [if_neg hshort] at hgrid
      cases hdb : dbSearch (searchQuery.getD "") with
      | error e => rw [hdb] at hgrid; cases hgrid
      | ok queryResult =>
          rw [hdb] at hgrid
          simp only [GridOutcome.ok.injEq] at hgrid
          obtain ⟨hts, _⟩ := hgrid
          intro t ht
          rw [← hts] at ht
          simp only [_addTilesToGrid, List.nil_append, List.mem_map] at ht
          obtain ⟨it, hitmem, rfl⟩ := ht
          rw [searchItems_eq_filterMap] at hitmem
          obtain ⟨q, hq, hres⟩ := List.mem_filterMap.mp hitmem
          have h2 := (resolveQueried_eq_some hres).2
          simp [tileOf, h2]
  unfold activate
  cases hfind : tiles.find? (fun t => t.name == name) with
  | none => rfl
  | some t =>
      have hp := List.find?_some hfind
      have hmem := List.mem_of_find?_eq_some hfind
      have hsome := htiles t hmem
      rw [show t.name = name from by simpa using hp, hname] at hsome
      cases hsome

/-- Witness for C3: a picker built from one concrete group; activating the
unknown name "zebra" inserts nothing. -/
theorem activateUnknownNameNoop_witness :
    activate [⟨"G", "grinning face"⟩] "zebra" = none :=
  activateUnknownNameNoop c3specs
    [⟨"Smileys & Expressions", "E", [⟨"grinning face", ["G"]⟩]⟩]
    [("grinning face", ["G"])]
    (fun _ => .ok []) none "Smileys & Expressions" 0
    [⟨"G", "grinning face"⟩] true "zebra" rfl (by decide) (by decide)

end EmojiPicker
